import Mathlib

/-!
Verification development for the chessgame board widget.

The embedding models the two source modules:
* `src/board.ts` — class `BoardController`, the state reconciler sitting on top of
  the chessground rendering surface (modelled as `CgState`, the slice of
  chessground's state that the controller reads and writes through `set()`).
* `src/mfe.ts` — the window message listener: origin guard, envelope check,
  command dispatch, ack/error replies (modelled as `MfeState`, `dispatch`,
  `handleMessage`).

Rendering-surface callbacks (`events.select`, `events.move`,
`premovable.events.set/unset`) are modelled as explicit event functions on the
controller state; invocations of the controller's host-facing callbacks are
collected as `BoardEvent` lists, and the mfe layer maps them to outbound
`OutMsg` messages exactly as `ensureBoard` wires them.
-/

namespace Chessgame

/-- Piece / side color, `type Color = 'white' | 'black'`. -/
inductive Color
  | white
  | black
deriving DecidableEq, Repr

/-- chessground `movable.color`: a concrete color or `'both'`. -/
inductive MovColor
  | color (c : Color)
  | both
deriving DecidableEq, Repr

/-- A `Map<string, string[]>` of origin square to destination squares,
modelled as an association list with JS `Map.set` overwrite semantics. -/
abbrev AssocMap := List (String × List String)

/-- `Map.set` semantics: overwrite an existing key in place, else append. -/
def setKey (m : AssocMap) (k : String) (v : List String) : AssocMap :=
  if m.any (fun p => p.1 == k) then
    m.map (fun p => if p.1 == k then (k, v) else p)
  else m ++ [(k, v)]

/-- `new Map(dests)`: later entries overwrite earlier ones with the same key. -/
def mapOfList (l : List (String × List String)) : AssocMap :=
  l.foldl (fun m p => setKey m p.1 p.2) []

/-- Lookup of the color of the piece on a square in the surface's piece map. -/
def pieceAt (ps : List (String × Color)) (sq : String) : Option Color :=
  (ps.find? (fun p => p.1 == sq)).map (fun p => p.2)

/-- One rank of a FEN board string: digits skip files, letters place pieces
(uppercase white, lowercase black). -/
def parseRow (rank : Nat) (cs : List Char) (file : Nat) : List (String × Color) :=
  match cs with
  | [] => []
  | c :: rest =>
    if c.isDigit then parseRow rank rest (file + (c.toNat - 48))
    else
      (String.mk [Char.ofNat (97 + file), Char.ofNat (48 + rank)],
        if c.isUpper then Color.white else Color.black) :: parseRow rank rest (file + 1)

/-- Piece placement extracted from the board part of a FEN string (only the
square → color information the controller's destination filter consults). -/
def fenPieces (fen : String) : List (String × Color) :=
  let board := String.mk (fen.toList.takeWhile (fun c => c ≠ ' '))
  let rows := board.splitOn "/"
  (rows.enum.map (fun pr => parseRow (8 - pr.1) pr.2.toList 0)).foldr (fun a b => a ++ b) []

/-- chessground's initial position. -/
def startFen : String := "rnbqkbnr/pppppppp/8/8/8/8/PPPPPPPP/RNBQKBNR"

/-- Initial piece map of a fresh chessground instance. -/
def startPieces : List (String × Color) := fenPieces startFen

/-- The slice of the chessground rendering-surface state that
`BoardController` reads and writes through `set()`. `movableDests` is
`movable.dests` (`none` = `undefined`), `premoveCustomDests` is
`premovable.customDests` (`some []` = an empty `new Map()`). -/
structure CgState where
  movableColor : MovColor
  turnColor : Color
  movableDests : Option AssocMap
  premoveCustomDests : Option AssocMap
  premovableEnabled : Bool
  premovableCurrent : Option (String × String)
  selected : Option String
  pieces : List (String × Color)
  fen : String
  orientation : Color
  draggableEnabled : Bool
  freeMode : Bool
  lastMove : Option (String × String)
  check : Option Bool
deriving DecidableEq, Repr

/-- The mutable fields of class `BoardController` (src/board.ts). `cg = none`
models `this.cg === null` (constructed but not yet `init`-ed, or destroyed). -/
structure BoardController where
  cg : Option CgState
  lastLegalMap : Option AssocMap
  lastPremoveMap : Option AssocMap
  lastSelectTs : Nat
  lastSelectedKey : Option String
  suppressNextSelectEvent : Bool
  savedPremCurrent : Option (String × String)
  allowPremoveClear : Bool
deriving DecidableEq, Repr

/-- A freshly constructed `BoardController` (the constructor only installs DOM
listeners; all fields start at their declared initial values). -/
def BoardController.fresh : BoardController :=
  { cg := none, lastLegalMap := none, lastPremoveMap := none, lastSelectTs := 0,
    lastSelectedKey := none, suppressNextSelectEvent := false,
    savedPremCurrent := none, allowPremoveClear := false }

/-- Which optional callbacks the embedder registered on the controller
(`onReady`, `onMove` are mandatory; `onSelect`, `onPremoveSelect` optional). -/
structure CallbackReg where
  hasOnSelect : Bool
  hasOnPremoveSelect : Bool
deriving DecidableEq, Repr

/-- An invocation of one of the controller's host-facing callbacks. -/
inductive BoardEvent
  | ready
  | moveEv (orig dest : String)
  | selectEv (sq : Option String)
  | errorEv (msg : String)
  | premoveSelectEv (orig dest : String)
deriving DecidableEq, Repr

/-- `InitOptions` of src/board.ts. -/
structure InitOptions where
  orientation : Option Color := none
  coordinates : Option Bool := none
  animationMs : Option Int := none
  blockTouchScroll : Option Bool := none
  playerColor : Option MovColor := none
deriving DecidableEq, Repr

/-- Payload of `setPosition`. -/
structure PositionPayload where
  fen : String
  lastMove : Option (String × String) := none
  check : Option Bool := none
  turnColor : Option Color := none
  orientation : Option Color := none
deriving DecidableEq, Repr

/-- The controller's turn-authority test, as written identically in
`setPosition`, `setTurn`, `setDraggable` and `setPremoveDests`:
`movableColor && movableColor !== 'both' && st.turnColor === movableColor`. -/
def onTurn (cg : CgState) : Bool :=
  match cg.movableColor with
  | MovColor.color c => cg.turnColor == c
  | MovColor.both => false

/-- `BoardController.init`: `if (this.cg) return;` else construct the
chessground instance with the given config and fire `onReady`. -/
def BoardController.init (st : BoardController) (opts : InitOptions) :
    BoardController × List BoardEvent :=
  match st.cg with
  | some _ => (st, [])
  | none =>
    ({ st with cg := some {
        movableColor := opts.playerColor.getD MovColor.both,
        turnColor := Color.white,
        movableDests := none,
        premoveCustomDests := none,
        premovableEnabled := true,
        premovableCurrent := none,
        selected := none,
        pieces := startPieces,
        fen := startFen,
        orientation := opts.orientation.getD Color.white,
        draggableEnabled := true,
        freeMode := false,
        lastMove := none,
        check := none } },
     [BoardEvent.ready])

/-- The turn-authority reapplication block repeated verbatim in
`setPosition`, `setTurn` and `setDraggable`: on turn push `lastLegalMap` (if
set) and force-clear premove dots; off turn clear legal dots and push
`lastPremoveMap` (if set). -/
def applyTurnAuthority (st : BoardController) : BoardController :=
  match st.cg with
  | none => st
  | some cg =>
    if onTurn cg then
      let cg := match st.lastLegalMap with
        | some m => { cg with movableDests := some m }
        | none => cg
      { st with cg := some { cg with premoveCustomDests := some [] },
                lastPremoveMap := none }
    else
      let cg := { cg with movableDests := none }
      let cg := match st.lastPremoveMap with
        | some m => { cg with premoveCustomDests := some m }
        | none => cg
      { st with cg := some cg }

/-- `if (this.savedPremCurrent) this.cg.set({ premovable: { current: ... } })`
— the premove-current reapplication done by `setPosition` and `setTurn`. -/
def reapplyPremoveCurrent (st : BoardController) : BoardController :=
  match st.cg, st.savedPremCurrent with
  | some cg, some sp => { st with cg := some { cg with premovableCurrent := some sp } }
  | _, _ => st

/-- Selection reassertion in `setPosition`: keep the user's selection only if
it is the player's turn and the selection is at most 800ms old. -/
def reapplySelection (st : BoardController) (now : Nat) : BoardController :=
  match st.cg with
  | none => st
  | some cg =>
    match st.lastSelectedKey with
    | some k =>
      if onTurn cg ∧ now - st.lastSelectTs ≤ 800 then
        { st with cg := some { cg with selected := some k } }
      else { st with cg := some { cg with selected := none } }
    | none => { st with cg := some { cg with selected := none } }

/-- `BoardController.setPosition`: push the partial position update, then
reapply turn authority, then selection, then the saved premove highlight. -/
def BoardController.setPosition (st : BoardController) (p : PositionPayload)
    (now : Nat) : BoardController :=
  match st.cg with
  | none => st
  | some cg =>
    let cg := { cg with
      fen := p.fen,
      pieces := fenPieces p.fen,
      lastMove := match p.lastMove with | some lm => some lm | none => cg.lastMove,
      check := match p.check with | some b => some b | none => cg.check,
      turnColor := p.turnColor.getD cg.turnColor,
      orientation := p.orientation.getD cg.orientation }
    let st := applyTurnAuthority { st with cg := some cg }
    let st := reapplySelection st now
    reapplyPremoveCurrent st

/-- The same-color destination filter of `setLegalDests`: a destination square
occupied by a piece of the same color as the origin's piece is dropped. -/
def sameColorFilter (pieces : List (String × Color)) (orig : String)
    (tos : List String) : List String :=
  tos.filter (fun dsq =>
    match pieceAt pieces dsq, pieceAt pieces orig with
    | some dc, some oc => decide (dc ≠ oc)
    | _, _ => true)

/-- The filtered map built by `setLegalDests`: entries whose cleaned
destination list is empty are dropped entirely. -/
def filteredDests (pieces : List (String × Color))
    (dests : List (String × List String)) : AssocMap :=
  dests.foldl (fun m p =>
    let clean := sameColorFilter pieces p.1 p.2
    if clean.isEmpty then m else setKey m p.1 clean) []

/-- `BoardController.setLegalDests`: empty input is ignored outright
(`// Ignore empty clears; persist dots`); otherwise apply the same-color
filtered map as `movable.dests`, force-clear premove dots, and remember both. -/
def BoardController.setLegalDests (st : BoardController)
    (dests : List (String × List String)) : BoardController :=
  match st.cg with
  | none => st
  | some cg =>
    if dests.isEmpty then st
    else
      let filtered := filteredDests cg.pieces dests
      { st with
        cg := some { cg with movableDests := some filtered,
                             premoveCustomDests := some [] },
        lastLegalMap := some filtered,
        lastPremoveMap := none }

/-- `BoardController.setTurn`: update `turnColor`, reapply turn authority,
then reapply the saved premove highlight. -/
def BoardController.setTurn (st : BoardController) (color : Color) : BoardController :=
  match st.cg with
  | none => st
  | some cg =>
    let st := applyTurnAuthority { st with cg := some { cg with turnColor := color } }
    reapplyPremoveCurrent st

/-- `BoardController.setDraggable`: update drag enablement and movable color,
then reapply turn authority. -/
def BoardController.setDraggable (st : BoardController) (enabled : Bool)
    (playerColor : MovColor) : BoardController :=
  match st.cg with
  | none => st
  | some cg =>
    applyTurnAuthority
      { st with cg := some { cg with draggableEnabled := enabled,
                                     movableColor := playerColor } }

/-- `BoardController.setFreeMode`: toggle free movement, then reapply both
remembered destination maps if present. -/
def BoardController.setFreeMode (st : BoardController) (free : Bool) : BoardController :=
  match st.cg with
  | none => st
  | some cg =>
    let cg := { cg with freeMode := free }
    let cg := match st.lastLegalMap with
      | some m => { cg with movableDests := some m }
      | none => cg
    let cg := match st.lastPremoveMap with
      | some m => { cg with premoveCustomDests := some m }
      | none => cg
    { st with cg := some cg }

/-- `BoardController.setPremoveDests`: while it is the player's own turn the
input is discarded and premove dots are cleared; an empty input clears the
premove dots immediately; otherwise apply the map as `premovable.customDests`
and clear the legal dots. -/
def BoardController.setPremoveDests (st : BoardController)
    (dests : List (String × List String)) : BoardController :=
  match st.cg with
  | none => st
  | some cg =>
    if onTurn cg then
      { st with cg := some { cg with premoveCustomDests := some [] },
                lastPremoveMap := none }
    else if dests.isEmpty then
      { st with cg := some { cg with premoveCustomDests := some [] },
                lastPremoveMap := none }
    else
      let map := mapOfList dests
      { st with
        cg := some { cg with movableDests := none,
                             premovableEnabled := true,
                             premoveCustomDests := some map },
        lastLegalMap := none,
        lastPremoveMap := some map }

/-- `BoardController.clearPremoveDestsMap`: clear `premovable.customDests`
while keeping premoves enabled. -/
def BoardController.clearPremoveDestsMap (st : BoardController) : BoardController :=
  match st.cg with
  | none => st
  | some cg =>
    { st with cg := some { cg with premoveCustomDests := some [] },
              lastPremoveMap := none }

/-- `BoardController.setPremoveCurrent`: show the persistent premove highlight
and keep `savedPremCurrent` in sync. -/
def BoardController.setPremoveCurrent (st : BoardController) (f t : String) :
    BoardController :=
  match st.cg with
  | none => st
  | some cg =>
    { st with cg := some { cg with premovableCurrent := some (f, t) },
              savedPremCurrent := some (f, t),
              lastSelectedKey := none }

/-- `BoardController.setSelected`: programmatic selection; a non-null square
arms `suppressNextSelectEvent`. -/
def BoardController.setSelected (st : BoardController) (square : Option String) :
    BoardController :=
  match st.cg with
  | none => st
  | some cg =>
    match square with
    | some sq =>
      { st with lastSelectedKey := some sq, suppressNextSelectEvent := true,
                cg := some { cg with selected := some sq } }
    | none =>
      { st with lastSelectedKey := none,
                cg := some { cg with selected := none } }

/-- `BoardController.clearPremoves`: toggles `premovable.enabled` off and back
on through two `set()` calls. It mutates neither `allowPremoveClear` nor
`savedPremCurrent`. -/
def BoardController.clearPremoves (st : BoardController) : BoardController :=
  match st.cg with
  | none => st
  | some cg =>
    let cg := { cg with premovableEnabled := false }
    let cg := { cg with premovableEnabled := true }
    { st with cg := some cg }

/-- `BoardController.playPremove`: delegates to the rendering surface
(`this.cg.playPremove()`); no controller state is touched. -/
def BoardController.playPremove (st : BoardController) : BoardController :=
  match st.cg with
  | none => st
  | some _ => st

/-- `BoardController.flip`: toggle the orientation. -/
def BoardController.flip (st : BoardController) : BoardController :=
  match st.cg with
  | none => st
  | some cg =>
    { st with cg := some { cg with
        orientation := if cg.orientation == Color.white then Color.black else Color.white } }

/-- `BoardController.destroy`: tear the surface down; `this.cg = null`. -/
def BoardController.destroy (st : BoardController) : BoardController :=
  { st with cg := none }

/-- The `premovable.events.set(orig, dest)` callback. The surface stores the
new pair in `premovable.current` before firing the event. If a premove is
already locked (`savedPremCurrent` with non-empty squares) and the new pair
differs, the locked pair is restored, the selection is cleared and nothing is
propagated; otherwise the new pair is locked and `onPremoveSelect` fires if
registered. -/
def premoveSetEvent (cb : CallbackReg) (st : BoardController) (orig dest : String) :
    BoardController × List BoardEvent :=
  match st.cg with
  | none => (st, [])
  | some cg0 =>
    let cg := { cg0 with premovableCurrent := some (orig, dest) }
    match st.savedPremCurrent with
    | some (a, b) =>
      if (!(a == "") && !(b == "")) && (!(orig == a) || !(dest == b)) then
        ({ st with cg := some { cg with premovableCurrent := some (a, b),
                                        selected := none } }, [])
      else
        ({ st with cg := some cg, savedPremCurrent := some (orig, dest) },
         if cb.hasOnPremoveSelect then [BoardEvent.premoveSelectEv orig dest] else [])
    | none =>
      ({ st with cg := some cg, savedPremCurrent := some (orig, dest) },
       if cb.hasOnPremoveSelect then [BoardEvent.premoveSelectEv orig dest] else [])

/-- The `premovable.events.unset()` callback. The surface clears
`premovable.current` before firing. If `allowPremoveClear` was armed it is
consumed and the lock released; otherwise the locked premove is immediately
restored (accidental clears re-lock). -/
def premoveUnsetEvent (st : BoardController) : BoardController × List BoardEvent :=
  match st.cg with
  | none => (st, [])
  | some cg0 =>
    let cg := { cg0 with premovableCurrent := none }
    if st.allowPremoveClear then
      ({ st with allowPremoveClear := false, savedPremCurrent := none,
                 cg := some { cg with premoveCustomDests := some [] } }, [])
    else
      match st.savedPremCurrent with
      | some (a, b) =>
        if !(a == "") && !(b == "") then
          ({ st with cg := some { cg with premovableCurrent := some (a, b) } }, [])
        else ({ st with cg := some cg }, [])
      | none => ({ st with cg := some cg }, [])

/-- The `events.move(orig, dest)` callback: forward the move, then clear all
highlight state. -/
def moveEvent (st : BoardController) (orig dest : String) :
    BoardController × List BoardEvent :=
  match st.cg with
  | none => (st, [])
  | some cg =>
    let cg := { cg with movableDests := none, premoveCustomDests := none,
                        selected := none }
    let st := { st with cg := some cg, lastSelectedKey := none,
                        lastLegalMap := none, lastPremoveMap := none }
    (st, [BoardEvent.moveEv orig dest])

/-- The `events.select(key?)` callback at time `now` (milliseconds). A non-null
key records the selection time and is forwarded unless suppressed; a null key
(deselect) is dropped when it arrives less than 200ms after the last recorded
selection, else forwarded once followed by local clearing. -/
def selectEvent (cb : CallbackReg) (st : BoardController) (key : Option String)
    (now : Nat) : BoardController × List BoardEvent :=
  match st.cg with
  | none => (st, [])
  | some cg =>
    if cb.hasOnSelect = false then (st, [])
    else
      match key with
      | some k =>
        if st.suppressNextSelectEvent then
          ({ st with suppressNextSelectEvent := false }, [])
        else
          let st := { st with lastSelectTs := now, lastSelectedKey := some k }
          let st :=
            match st.savedPremCurrent with
            | some (a, b) =>
              if !(a == "") && !(b == "") then
                { st with cg := some { cg with premovableCurrent := some (a, b) } }
              else
                match cg.premovableCurrent with
                | some cur => { st with savedPremCurrent := some cur }
                | none => st
            | none =>
              match cg.premovableCurrent with
              | some cur => { st with savedPremCurrent := some cur }
              | none => st
          (st, [BoardEvent.selectEv (some k)])
      | none =>
        if now - st.lastSelectTs < 200 then (st, [])
        else
          let cg := { cg with movableDests := none, premoveCustomDests := some [] }
          let cg := match st.savedPremCurrent with
            | some sp => { cg with premovableCurrent := some sp }
            | none => cg
          ({ st with cg := some cg, lastLegalMap := none, lastPremoveMap := none,
                     lastSelectedKey := none },
           [BoardEvent.selectEv none])

/-- The right-click (`contextmenu`) listener installed by the constructor: arm
`allowPremoveClear`, clear the surface's current premove and premove dots, and
drop the lock and remembered premove map. -/
def contextmenuEvent (st : BoardController) : BoardController :=
  let st := { st with allowPremoveClear := true }
  let st := match st.cg with
    | some cg => { st with cg := some { cg with premovableCurrent := none,
                                                premoveCustomDests := some [] } }
    | none => st
  { st with savedPremCurrent := none, lastPremoveMap := none }

/-- The `pointerdown` listener installed by the constructor: a pointer-down on
the locked premove's origin square arms `allowPremoveClear` and clears it. -/
def pointerdownEvent (st : BoardController) (key : Option String) : BoardController :=
  match key with
  | none => st
  | some k =>
    match st.savedPremCurrent with
    | some (a, _) =>
      if !(k == "") && k == a then
        let st := { st with allowPremoveClear := true }
        let st := match st.cg with
          | some cg => { st with cg := some { cg with premovableCurrent := none,
                                                      premoveCustomDests := some [] } }
          | none => st
        { st with savedPremCurrent := none, lastPremoveMap := none }
      else st
    | none => st

/-- The legal destination set is non-empty on the rendering surface. -/
def legalNonempty (st : BoardController) : Bool :=
  match st.cg with
  | some cg => match cg.movableDests with
    | some m => !m.isEmpty
    | none => false
  | none => false

/-- The premove destination set is non-empty on the rendering surface. -/
def premoveNonempty (st : BoardController) : Bool :=
  match st.cg with
  | some cg => match cg.premoveCustomDests with
    | some m => !m.isEmpty
    | none => false
  | none => false

/-- A parsed command carried by an inbound envelope, one constructor per
`case` of the dispatcher's `switch (type)`, with the payload-field extraction
and defaulting (`payload?.dests || []`, `!!payload?.enabled`,
`payload?.playerColor || 'both'`) already applied. `unknown t` is any
unrecognized `type` string. -/
inductive Cmd
  | init (opts : InitOptions) (themeName : Option String)
  | setTheme (name : Option String)
  | setPosition (p : PositionPayload)
  | setLegalDests (dests : List (String × List String))
  | setPremoveDests (dests : List (String × List String))
  | setTurn (color : Color)
  | setDraggable (enabled : Bool) (playerColor : MovColor)
  | setFreeMode (free : Bool)
  | clearPremoves
  | playPremove
  | flip
  | setSize (w h : Int)
  | reset
  | unknown (t : String)
deriving DecidableEq, Repr

/-- The `type` string of a command as it appears on the wire. -/
def Cmd.typeName : Cmd → String
  | Cmd.init _ _ => "init"
  | Cmd.setTheme _ => "setTheme"
  | Cmd.setPosition _ => "setPosition"
  | Cmd.setLegalDests _ => "setLegalDests"
  | Cmd.setPremoveDests _ => "setPremoveDests"
  | Cmd.setTurn _ => "setTurn"
  | Cmd.setDraggable _ _ => "setDraggable"
  | Cmd.setFreeMode _ => "setFreeMode"
  | Cmd.clearPremoves => "clearPremoves"
  | Cmd.playPremove => "playPremove"
  | Cmd.flip => "flip"
  | Cmd.setSize _ _ => "setSize"
  | Cmd.reset => "reset"
  | Cmd.unknown t => t

/-- The wire envelope `{type, version, id?, ts?, payload?}`. -/
structure Envelope where
  cmd : Cmd
  version : Int
  id : Option String
deriving DecidableEq, Repr

/-- An outbound widget → host message posted through `post`. -/
inductive OutMsg
  | hello (version : Int)
  | ready
  | moveMsg (orig dest : String)
  | selectMsg (sq : Option String)
  | ackMsg (forId : String) (ok : Bool) (error : Option String)
  | errorMsg (message : String)
deriving DecidableEq, Repr

/-- The module-level mutable session state of src/mfe.ts. `allowedOrigin =
none` models the wildcard; `controller = none` models `controller === null`;
`appRootExists` models whether `document.getElementById('app')` succeeds. -/
structure MfeState where
  allowedOrigin : Option String
  parentWindow : Option Nat
  controller : Option BoardController
  initializedByParent : Bool
  appRootExists : Bool
deriving DecidableEq, Repr

/-- Session state at widget load. -/
def mfeInitial : MfeState :=
  { allowedOrigin := none, parentWindow := none, controller := none,
    initializedByParent := false, appRootExists := true }

/-- The callbacks registered by `ensureBoard` in src/mfe.ts: `onReady`,
`onMove`, `onSelect`, `onError` — and no `onPremoveSelect`. -/
def mfeCallbacks : CallbackReg :=
  { hasOnSelect := true, hasOnPremoveSelect := false }

/-- How the callbacks registered by `ensureBoard` turn controller callback
invocations into outbound messages. `premoveSelectEv` has no registered
callback in src/mfe.ts, so it produces no message. -/
def wireEvents (evs : List BoardEvent) : List OutMsg :=
  evs.filterMap (fun e =>
    match e with
    | BoardEvent.ready => some OutMsg.ready
    | BoardEvent.moveEv a b => some (OutMsg.moveMsg a b)
    | BoardEvent.selectEv sq => some (OutMsg.selectMsg sq)
    | BoardEvent.errorEv m => some (OutMsg.errorMsg m)
    | BoardEvent.premoveSelectEv _ _ => none)

/-- `ack(id, true)` when an `id` was present, nothing otherwise. -/
def ackOk (id : Option String) : List OutMsg :=
  match id with
  | some i => [OutMsg.ackMsg i true none]
  | none => []

/-- `ensureBoard().op()`: reuse the existing controller, or build a fresh one
if the `#app` root still exists, else throw `root #app missing`. The third
component is the thrown message, if any. -/
def runBoardOp (s : MfeState) (op : BoardController → BoardController × List BoardEvent) :
    MfeState × List BoardEvent × Option String :=
  match s.controller with
  | some c =>
    let r := op c
    ({ s with controller := some r.1 }, r.2, none)
  | none =>
    if s.appRootExists then
      let r := op BoardController.fresh
      ({ s with controller := some r.1 }, r.2, none)
    else (s, [], some "root #app missing")

/-- A dispatcher case of shape `ensureBoard().method(...); if (id) ack(id, true);`
for a controller method with no callback side effects. -/
def hostOp (s : MfeState) (id : Option String) (f : BoardController → BoardController) :
    MfeState × List OutMsg × Option String :=
  match runBoardOp s (fun b => (f b, [])) with
  | (s1, evs, none) => (s1, wireEvents evs ++ ackOk id, none)
  | (s1, evs, some e) => (s1, wireEvents evs, some e)

/-- The `InitOptions` normalization done inline by the `case 'init'` handler
before calling `board.init`. -/
def mfeInitOptions (opts : InitOptions) : InitOptions :=
  { orientation := some (opts.orientation.getD Color.white),
    coordinates := some (opts.coordinates.getD true),
    animationMs := some (opts.animationMs.getD 200),
    blockTouchScroll := some (opts.blockTouchScroll.getD true),
    playerColor := some (opts.playerColor.getD MovColor.both) }

/-- The dispatcher's `switch (type)`: one case per recognized command. The
third component is the message of an uncaught handler exception (`none` when
the case completed; the caller adds the failure ack and error broadcast).
`setTheme` and `setSize` only touch the DOM; `reset` destroys the controller
and empties `#app` (the `#app` element itself remains). -/
def dispatch (s : MfeState) (origin : String) (c : Cmd) (id : Option String)
    (now : Nat) : MfeState × List OutMsg × Option String :=
  match c with
  | Cmd.init opts _ =>
    let s := { s with allowedOrigin := if origin == "" then none else some origin }
    match runBoardOp s (fun b => b.init (mfeInitOptions opts)) with
    | (s1, evs, none) =>
      ({ s1 with initializedByParent := true }, wireEvents evs ++ ackOk id, none)
    | (s1, evs, some e) => (s1, wireEvents evs, some e)
  | Cmd.setTheme _ => (s, ackOk id, none)
  | Cmd.setPosition p => hostOp s id (fun b => b.setPosition p now)
  | Cmd.setLegalDests d => hostOp s id (fun b => b.setLegalDests d)
  | Cmd.setPremoveDests d => hostOp s id (fun b => b.setPremoveDests d)
  | Cmd.setTurn col => hostOp s id (fun b => b.setTurn col)
  | Cmd.setDraggable e pc => hostOp s id (fun b => b.setDraggable e pc)
  | Cmd.setFreeMode f => hostOp s id (fun b => b.setFreeMode f)
  | Cmd.clearPremoves => hostOp s id (fun b => b.clearPremoves)
  | Cmd.playPremove => hostOp s id (fun b => b.playPremove)
  | Cmd.flip => hostOp s id (fun b => b.flip)
  | Cmd.setSize _ _ => hostOp s id (fun b => b)
  | Cmd.reset => ({ s with controller := none }, ackOk id, none)
  | Cmd.unknown t =>
    (s, (match id with
         | some i => [OutMsg.ackMsg i false (some ("Unknown type " ++ t))]
         | none => []), none)

/-- `parentWindow = parentWindow || evt.source`. -/
def captureParent (s : MfeState) (source : Nat) : MfeState :=
  { s with parentWindow :=
      match s.parentWindow with
      | some p => some p
      | none => some source }

/-- The origin guard at the head of the message listener: with the wildcard
every origin passes; once concrete, only the adopted origin. -/
def originAccepted (s : MfeState) (origin : String) : Bool :=
  match s.allowedOrigin with
  | none => true
  | some ao => origin == ao

/-- The body of the message listener after the origin and envelope checks:
capture the counterpart handle, run the dispatcher inside the failure
boundary, and on an exception reply `ack{ok:false,error}` (when an `id` is
present) followed by the standalone `error` broadcast. -/
def processMessage (s : MfeState) (origin : String) (source : Nat)
    (env : Envelope) (now : Nat) : MfeState × List OutMsg :=
  let s1 := captureParent s source
  let r := dispatch s1 origin env.cmd env.id now
  match r.2.2 with
  | none => (r.1, r.2.1)
  | some e =>
    (r.1,
     r.2.1 ++ (match env.id with
               | some i => [OutMsg.ackMsg i false (some e)]
               | none => []) ++ [OutMsg.errorMsg "handler exception"])

/-- The window `message` listener: drop foreign origins once adopted, drop
envelopes with a wrong `version` or a missing `type`, else process. -/
def handleMessage (s : MfeState) (origin : String) (source : Nat)
    (env : Envelope) (now : Nat) : MfeState × List OutMsg :=
  if originAccepted s origin then
    if env.version = 1 ∧ env.cmd.typeName ≠ "" then
      processMessage s origin source env now
    else (s, [])
  else (s, [])

/-- Recognizer for an ack that answers request `i`. -/
def isAck (i : String) : OutMsg → Bool
  | OutMsg.ackMsg j _ _ => j == i
  | _ => false

/-- Number of acks answering request `i` in an outbound message list. -/
def countAck (i : String) (l : List OutMsg) : Nat :=
  (l.filter (isAck i)).length

/-! Concrete fixture states used by counterexamples and witnesses. -/

/-- A live surface where the player moves white and it is black's turn. -/
def offTurnCg : CgState :=
  { movableColor := MovColor.color Color.white, turnColor := Color.black,
    movableDests := none, premoveCustomDests := none, premovableEnabled := true,
    premovableCurrent := none, selected := none, pieces := startPieces,
    fen := startFen, orientation := Color.white, draggableEnabled := true,
    freeMode := false, lastMove := none, check := none }

/-- A live surface where the player moves white and it is white's turn. -/
def onTurnCg : CgState := { offTurnCg with turnColor := Color.white }

/-- A controller bound to an off-turn surface, no premove committed. -/
def offTurnBoard : BoardController :=
  { BoardController.fresh with cg := some offTurnCg }

/-- A controller bound to an on-turn surface, no premove committed. -/
def onTurnBoard : BoardController :=
  { BoardController.fresh with cg := some onTurnCg }

/-- An off-turn surface showing the committed premove `e2 → e4`. -/
def lockedCg : CgState := { offTurnCg with premovableCurrent := some ("e2", "e4") }

/-- A controller whose premove lock holds `e2 → e4`. -/
def lockedBoard : BoardController :=
  { BoardController.fresh with
    cg := some lockedCg,
    savedPremCurrent := some ("e2", "e4") }

/-- A widget session with a live board, before origin adoption. -/
def hostSession : MfeState := { mfeInitial with controller := some offTurnBoard }

/-!  C3 — rejection of a replacement premove while locked. -/

/-- C3: while the premove lock holds `(a, b)`, a rendering-surface report of a
different premove commit `(orig, dest)` leaves the lock at `(a, b)`, reapplies
`(a, b)` as the surface's current premove, clears the transient selection, and
emits no outbound premove-selected notification (no callback at all). -/
theorem premove_replacement_rejected (cb : CallbackReg) (st : BoardController)
    (cg : CgState) (a b orig dest : String)
    (hcg : st.cg = some cg) (hlock : st.savedPremCurrent = some (a, b))
    (ha : a ≠ "") (hb : b ≠ "") (hne : (orig, dest) ≠ (a, b)) :
    (premoveSetEvent cb st orig dest).1.savedPremCurrent = some (a, b) ∧
    (∃ cg', (premoveSetEvent cb st orig dest).1.cg = some cg' ∧
      cg'.premovableCurrent = some (a, b) ∧ cg'.selected = none) ∧
    (premoveSetEvent cb st orig dest).2 = [] := by
  have ha' : (a == "") = false := by simp [ha]
  have hb' : (b == "") = false := by simp [hb]
  have h3 : orig ≠ a ∨ dest ≠ b := by
    by_contra hc
    push_neg at hc
    exact hne (by simp [hc.1, hc.2])
  have hcond : ((!(a == "") && !(b == "")) && (!(orig == a) || !(dest == b))) = true := by
    rcases h3 with h3 | h3 <;> simp [ha', hb', h3]
  simp [premoveSetEvent, hcg, hlock, hcond]

/-- Witness for `premove_replacement_rejected` at the locked fixture with the
conflicting attempt `d2 → d4`. -/
theorem premove_replacement_rejected_witness :
    (lockedBoard.cg = some lockedCg ∧
      lockedBoard.savedPremCurrent = some ("e2", "e4") ∧
      ("e2" : String) ≠ "" ∧ ("e4" : String) ≠ "" ∧
      (("d2", "d4") : String × String) ≠ ("e2", "e4")) ∧
    ((premoveSetEvent mfeCallbacks lockedBoard "d2" "d4").1.savedPremCurrent
        = some ("e2", "e4") ∧
      (∃ cg', (premoveSetEvent mfeCallbacks lockedBoard "d2" "d4").1.cg = some cg' ∧
        cg'.premovableCurrent = some ("e2", "e4") ∧ cg'.selected = none) ∧
      (premoveSetEvent mfeCallbacks lockedBoard "d2" "d4").2 = []) :=
  ⟨⟨rfl, rfl, by decide, by decide, by decide⟩,
    premove_replacement_rejected mfeCallbacks lockedBoard lockedCg
      "e2" "e4" "d2" "d4" rfl rfl (by decide) (by decide) (by decide)⟩

/-!  C4 — first premove commit locks, but the host is never notified. -/

/-- C4 counterexample: with the callbacks actually registered by src/mfe.ts
(`mfeCallbacks` has no `onPremoveSelect`), a premove commit reported while the
lock is `Unlocked` does transition the lock to `Locked(e2, e4)`, yet ZERO
outbound messages are produced — not the exactly-one premove-selected
notification to the host that the claim states. -/
theorem premove_commit_no_host_message :
    (premoveSetEvent mfeCallbacks offTurnBoard "e2" "e4").1.savedPremCurrent
      = some ("e2", "e4") ∧
    wireEvents (premoveSetEvent mfeCallbacks offTurnBoard "e2" "e4").2 = [] := by
  decide

/-- C4 (amended): while the lock is `Unlocked`, a surface premove commit
`(orig, dest)` locks `(orig, dest)` and invokes the controller's
`onPremoveSelect` callback exactly once — when such a callback is registered;
src/mfe.ts registers none, so no message reaches the host. -/
theorem premove_commit_locks_once (cb : CallbackReg) (st : BoardController)
    (cg : CgState) (orig dest : String)
    (hcg : st.cg = some cg) (hun : st.savedPremCurrent = none)
    (hcb : cb.hasOnPremoveSelect = true) :
    (premoveSetEvent cb st orig dest).1.savedPremCurrent = some (orig, dest) ∧
    (premoveSetEvent cb st orig dest).2 = [BoardEvent.premoveSelectEv orig dest] := by
  simp [premoveSetEvent, hcg, hun, hcb]

/-- Witness for `premove_commit_locks_once` with a callback registration that
does include `onPremoveSelect`. -/
theorem premove_commit_locks_once_witness :
    (offTurnBoard.cg = some offTurnCg ∧ offTurnBoard.savedPremCurrent = none ∧
      (⟨true, true⟩ : CallbackReg).hasOnPremoveSelect = true) ∧
    ((premoveSetEvent ⟨true, true⟩ offTurnBoard "e2" "e4").1.savedPremCurrent
        = some ("e2", "e4") ∧
      (premoveSetEvent ⟨true, true⟩ offTurnBoard "e2" "e4").2
        = [BoardEvent.premoveSelectEv "e2" "e4"]) :=
  ⟨⟨rfl, rfl, rfl⟩,
    premove_commit_locks_once ⟨true, true⟩ offTurnBoard offTurnCg "e2" "e4" rfl rfl rfl⟩

/-!  C5 — host `clearPremoves` does not release the lock. -/

/-- C5 counterexample: processing `clearPremoves` on a controller whose lock
holds `e2 → e4` leaves the lock committed and `allowPremoveClear` (the
clearance flag) unset — the command neither forces the lock to `Unlocked` nor
arms the clearance flag, contrary to the claim. -/
theorem clearPremoves_leaves_lock_locked :
    (lockedBoard.clearPremoves).savedPremCurrent = some ("e2", "e4") ∧
    (lockedBoard.clearPremoves).allowPremoveClear = false := by
  decide

/-- C5 (amended): `clearPremoves` toggles the surface's `premovable.enabled`
off and back on but changes neither the premove lock nor `allowPremoveClear`;
and if the surface's `unset` callback then fires with the flag still unarmed,
the handler re-locks by reapplying the committed pair, so `clearPremoves`
never releases a committed premove. -/
theorem clearPremoves_preserves_lock (st : BoardController) (cg : CgState)
    (hcg : st.cg = some cg) :
    (st.clearPremoves).savedPremCurrent = st.savedPremCurrent ∧
    (st.clearPremoves).allowPremoveClear = st.allowPremoveClear ∧
    (∃ cg', (st.clearPremoves).cg = some cg' ∧ cg'.premovableEnabled = true) ∧
    (∀ a b, st.allowPremoveClear = false → st.savedPremCurrent = some (a, b) →
      a ≠ "" → b ≠ "" →
      (premoveUnsetEvent st.clearPremoves).1.savedPremCurrent = some (a, b) ∧
      ∃ cg', (premoveUnsetEvent st.clearPremoves).1.cg = some cg' ∧
        cg'.premovableCurrent = some (a, b)) := by
  refine ⟨?_, ?_, ?_, ?_⟩
  · simp [BoardController.clearPremoves, hcg]
  · simp [BoardController.clearPremoves, hcg]
  · refine ⟨{ cg with premovableEnabled := true }, ?_, rfl⟩
    simp [BoardController.clearPremoves, hcg]
  intro a b hflag hsp ha hb
  have ha' : (a == "") = false := by simp [ha]
  have hb' : (b == "") = false := by simp [hb]
  simp [BoardController.clearPremoves, premoveUnsetEvent, hcg, hflag, hsp, ha', hb']

/-- Witness for `clearPremoves_preserves_lock` at the locked fixture. -/
theorem clearPremoves_preserves_lock_witness :
    lockedBoard.cg = some lockedCg ∧
    ((lockedBoard.clearPremoves).savedPremCurrent = lockedBoard.savedPremCurrent ∧
      (lockedBoard.clearPremoves).allowPremoveClear = lockedBoard.allowPremoveClear ∧
      (∃ cg', (lockedBoard.clearPremoves).cg = some cg' ∧ cg'.premovableEnabled = true) ∧
      (∀ a b, lockedBoard.allowPremoveClear = false →
        lockedBoard.savedPremCurrent = some (a, b) → a ≠ "" → b ≠ "" →
        (premoveUnsetEvent lockedBoard.clearPremoves).1.savedPremCurrent = some (a, b) ∧
        ∃ cg', (premoveUnsetEvent lockedBoard.clearPremoves).1.cg = some cg' ∧
          cg'.premovableCurrent = some (a, b))) :=
  ⟨rfl, clearPremoves_preserves_lock lockedBoard lockedCg rfl⟩

/-!  C8 — deselect suppression window. -/

/-- C8: with the `onSelect` callback registered, a null-selection (deselect)
arriving less than 200ms after the most recent recorded selection is dropped
entirely (no state change, nothing forwarded); one arriving at 200ms or later
is forwarded exactly once (one `selectEv none`, mapped by the mfe wiring to
one `select{square:null}` message); and a non-suppressed non-null selection at
time `t` records `lastSelectTs = t`, so `lastSelectTs` is the time of the most
recent forwarded selection. -/
theorem deselect_suppression (cb : CallbackReg) (st : BoardController)
    (cg : CgState) (now : Nat)
    (hcg : st.cg = some cg) (hcb : cb.hasOnSelect = true) :
    (now - st.lastSelectTs < 200 → selectEvent cb st none now = (st, [])) ∧
    (200 ≤ now - st.lastSelectTs →
      (selectEvent cb st none now).2 = [BoardEvent.selectEv none] ∧
      wireEvents (selectEvent cb st none now).2 = [OutMsg.selectMsg none]) ∧
    (∀ k tsel, st.suppressNextSelectEvent = false →
      (selectEvent cb st (some k) tsel).1.lastSelectTs = tsel) := by
  refine ⟨?_, ?_, ?_⟩
  · intro hlt
    simp [selectEvent, hcg, hcb, hlt]
  · intro hge
    have hlt : ¬(now - st.lastSelectTs < 200) := by omega
    constructor <;> simp [selectEvent, wireEvents, hcg, hcb, hlt]
  · intro k tsel hsup
    simp only [selectEvent, hcg, hcb]
    simp only [hsup, if_false, Bool.false_eq_true]
    cases hsp : st.savedPremCurrent with
    | none =>
      cases cg.premovableCurrent <;> simp
    | some p =>
      obtain ⟨a, b⟩ := p
      by_cases hab : (!(a == "") && !(b == "")) = true
      · simp [hab]
      · simp only [Bool.not_eq_true] at hab
        cases cg.premovableCurrent <;> simp [hab]

/-- Witness for `deselect_suppression`: fresh board, deselect at t = 250. -/
theorem deselect_suppression_witness :
    (offTurnBoard.cg = some offTurnCg ∧ mfeCallbacks.hasOnSelect = true) ∧
    ((250 - offTurnBoard.lastSelectTs < 200 →
        selectEvent mfeCallbacks offTurnBoard none 250 = (offTurnBoard, [])) ∧
      (200 ≤ 250 - offTurnBoard.lastSelectTs →
        (selectEvent mfeCallbacks offTurnBoard none 250).2 = [BoardEvent.selectEv none] ∧
        wireEvents (selectEvent mfeCallbacks offTurnBoard none 250).2
          = [OutMsg.selectMsg none]) ∧
      (∀ k tsel, offTurnBoard.suppressNextSelectEvent = false →
        (selectEvent mfeCallbacks offTurnBoard (some k) tsel).1.lastSelectTs = tsel)) :=
  ⟨⟨rfl, rfl⟩, deselect_suppression mfeCallbacks offTurnBoard offTurnCg 250 rfl rfl⟩

/-!  C9 — empty destination clears and the 200ms window. -/

/-- C9 counterexample: in the current variant an empty `setPremoveDests`
arriving immediately (well within any 200ms window) after a non-empty premove
set is NOT ignored: the premove dots are cleared at once. -/
theorem premove_empty_clear_not_ignored :
    premoveNonempty (offTurnBoard.setPremoveDests [("e7", ["e5"])]) = true ∧
    premoveNonempty
      ((offTurnBoard.setPremoveDests [("e7", ["e5"])]).setPremoveDests []) = false := by
  decide

/-- C9 (amended): an empty `setLegalDests` is ignored unconditionally — with
or without a 200ms window, the previously applied legal dots persist (the
state is returned unchanged); an empty `setPremoveDests` is never ignored: it
immediately clears the premove dots regardless of how recently a non-empty set
was applied. (The 200ms clear-debounce windows exist only in the earlier
source variant, not in the current one.) -/
theorem empty_clear_behavior (st : BoardController) (cg : CgState)
    (hcg : st.cg = some cg) :
    st.setLegalDests [] = st ∧
    ∃ cg', (st.setPremoveDests []).cg = some cg' ∧
      cg'.premoveCustomDests = some [] ∧ (st.setPremoveDests []).lastPremoveMap = none := by
  constructor
  · simp [BoardController.setLegalDests, hcg]
  · by_cases hT : onTurn cg <;>
      simp [BoardController.setPremoveDests, hcg, hT]

/-- Witness for `empty_clear_behavior` at the off-turn fixture. -/
theorem empty_clear_behavior_witness :
    offTurnBoard.cg = some offTurnCg ∧
    (offTurnBoard.setLegalDests [] = offTurnBoard ∧
      ∃ cg', (offTurnBoard.setPremoveDests []).cg = some cg' ∧
        cg'.premoveCustomDests = some [] ∧
        (offTurnBoard.setPremoveDests []).lastPremoveMap = none) :=
  ⟨rfl, empty_clear_behavior offTurnBoard offTurnCg rfl⟩

/-!  C1 — mutual exclusion of the two destination sets. -/

/-- `Map.set` never produces an empty map. -/
lemma setKey_ne_nil (m : AssocMap) (k : String) (v : List String) :
    setKey m k v ≠ [] := by
  unfold setKey
  split
  · rcases m with _ | ⟨p, t⟩ <;> simp_all
  · simp

/-- Folding `Map.set` over entries preserves non-emptiness. -/
lemma foldl_setKey_ne_nil (l : List (String × List String)) (m : AssocMap)
    (hm : m ≠ []) : l.foldl (fun acc p => setKey acc p.1 p.2) m ≠ [] := by
  induction l generalizing m with
  | nil => simpa using hm
  | cons p t ih => exact ih _ (setKey_ne_nil m p.1 p.2)

/-- `new Map(dests)` of a non-empty entry list is non-empty. -/
lemma mapOfList_ne_nil (l : List (String × List String)) (hl : l ≠ []) :
    mapOfList l ≠ [] := by
  rcases l with _ | ⟨p, t⟩
  · exact absurd rfl hl
  · simpa [mapOfList] using foldl_setKey_ne_nil t (setKey [] p.1 p.2) (setKey_ne_nil [] p.1 p.2)

/-- The turn-authority test only reads `movableColor` and `turnColor`, which
destination updates never touch. -/
lemma onTurn_update_dests (cg : CgState) (md pd : Option AssocMap) :
    onTurn { cg with movableDests := md, premoveCustomDests := pd } = onTurn cg := rfl

/-- `setLegalDests` with an empty list is the identity. -/
lemma setLegalDests_nil (st : BoardController) : st.setLegalDests [] = st := by
  cases h : st.cg <;> simp [BoardController.setLegalDests, h]

/-- Shape of `setLegalDests` on a non-empty list. -/
lemma setLegalDests_cons (st : BoardController) (cg : CgState)
    (d : List (String × List String)) (hcg : st.cg = some cg) (hd : d ≠ []) :
    st.setLegalDests d =
      { st with
        cg := some { cg with movableDests := some (filteredDests cg.pieces d),
                             premoveCustomDests := some [] },
        lastLegalMap := some (filteredDests cg.pieces d),
        lastPremoveMap := none } := by
  have hde : d.isEmpty = false := by simpa using hd
  simp [BoardController.setLegalDests, hcg, hde]

/-- Shape of `setPremoveDests` when it clears (player's own turn, or empty
input). -/
lemma setPremoveDests_clear (st : BoardController) (cg : CgState)
    (d : List (String × List String)) (hcg : st.cg = some cg)
    (h : onTurn cg = true ∨ d = []) :
    st.setPremoveDests d =
      { st with cg := some { cg with premoveCustomDests := some [] },
                lastPremoveMap := none } := by
  rcases h with h | h
  · simp [BoardController.setPremoveDests, hcg, h]
  · subst h
    by_cases hT : onTurn cg <;> simp [BoardController.setPremoveDests, hcg, hT]

/-- Shape of `setPremoveDests` when it applies a non-empty map off turn. -/
lemma setPremoveDests_apply (st : BoardController) (cg : CgState)
    (d : List (String × List String)) (hcg : st.cg = some cg)
    (hT : onTurn cg = false) (hd : d ≠ []) :
    st.setPremoveDests d =
      { st with
        cg := some { cg with movableDests := none, premovableEnabled := true,
                             premoveCustomDests := some (mapOfList d) },
        lastLegalMap := none,
        lastPremoveMap := some (mapOfList d) } := by
  have hde : d.isEmpty = false := by simpa using hd
  simp [BoardController.setPremoveDests, hcg, hT, hde]

/-- C1 counterexample: on the player's own turn, `setLegalDests []`
(ignored) immediately followed by `setPremoveDests [(e7, [e5])]` — a
non-empty supplied mapping — leaves NEITHER destination set applied to the
rendering surface, contradicting the claim's "never neither when one of the
two supplied mappings was non-empty". -/
theorem dest_pair_neither_active :
    legalNonempty ((onTurnBoard.setLegalDests []).setPremoveDests [("e7", ["e5"])]) = false ∧
    premoveNonempty ((onTurnBoard.setLegalDests []).setPremoveDests [("e7", ["e5"])]) = false := by
  decide

/-- C1 (amended): after a `setLegalDests`/`setPremoveDests` pair in either
order, at most one destination set is non-empty on the rendering surface —
never both — and applying one set clears the other; moreover, when the pair
runs while the player is off turn and the same-color filter does not empty a
non-empty supplied legal mapping, exactly one set is active whenever one of
the two supplied mappings was non-empty. (On the player's own turn
`setPremoveDests` force-clears instead of applying, and a fully filtered-out
legal mapping is applied as an empty map, so in those cases neither set may
remain active.) -/
theorem dest_sets_exclusive (st : BoardController) (cg : CgState)
    (L P : List (String × List String)) (hcg : st.cg = some cg) :
    (¬(legalNonempty ((st.setLegalDests L).setPremoveDests P) = true ∧
        premoveNonempty ((st.setLegalDests L).setPremoveDests P) = true)) ∧
    (¬(legalNonempty ((st.setPremoveDests P).setLegalDests L) = true ∧
        premoveNonempty ((st.setPremoveDests P).setLegalDests L) = true)) ∧
    (L ≠ [] → premoveNonempty (st.setLegalDests L) = false) ∧
    (onTurn cg = false → P ≠ [] → legalNonempty (st.setPremoveDests P) = false) ∧
    (onTurn cg = false →
      (L ≠ [] → (filteredDests cg.pieces L).isEmpty = false) →
      (L ≠ [] ∨ P ≠ []) →
      (legalNonempty ((st.setLegalDests L).setPremoveDests P) = true ∨
        premoveNonempty ((st.setLegalDests L).setPremoveDests P) = true) ∧
      (legalNonempty ((st.setPremoveDests P).setLegalDests L) = true ∨
        premoveNonempty ((st.setPremoveDests P).setLegalDests L) = true)) := by
  by_cases hL : L = []
  -- L empty: the legal call is ignored in both orders
  · subst hL
    by_cases hT : onTurn cg
    · have hclr := setPremoveDests_clear st cg P hcg (Or.inl hT)
      refine ⟨?_, ?_, ?_, ?_, ?_⟩
      · rw [setLegalDests_nil, hclr]
        simp [premoveNonempty]
      · rw [hclr, setLegalDests_nil]
        simp [premoveNonempty]
      · intro h; exact absurd rfl h
      · intro h; exact absurd hT (by simp [h])
      · intro h; exact absurd hT (by simp [h])
    · have hT' : onTurn cg = false := by simpa using hT
      by_cases hP : P = []
      · have hclr := setPremoveDests_clear st cg P hcg (Or.inr hP)
        refine ⟨?_, ?_, ?_, ?_, ?_⟩
        · rw [setLegalDests_nil, hclr]
          simp [premoveNonempty]
        · rw [hclr, setLegalDests_nil]
          simp [premoveNonempty]
        · intro h; exact absurd rfl h
        · intro _ h; exact absurd hP (by simpa using h)
        · intro _ _ hOne
          rcases hOne with h | h
          · exact absurd rfl h
          · exact absurd hP (by simpa using h)
      · have happ := setPremoveDests_apply st cg P hcg hT' hP
        refine ⟨?_, ?_, ?_, ?_, ?_⟩
        · rw [setLegalDests_nil, happ]
          simp [legalNonempty]
        · rw [happ, setLegalDests_nil]
          simp [legalNonempty]
        · intro h; exact absurd rfl h
        · intro _ _
          rw [happ]; simp [legalNonempty]
        · intro _ _ _
          have hne : (mapOfList P) ≠ [] := mapOfList_ne_nil P hP
          have hie : (mapOfList P).isEmpty = false := by simpa using hne
          constructor
          · rw [setLegalDests_nil, happ]
            right
            simp [premoveNonempty, hie]
          · rw [happ, setLegalDests_nil]
            right
            simp [premoveNonempty, hie]
  -- L non-empty: the legal call applies the filtered map and clears premove
  · have hlc := setLegalDests_cons st cg L hcg hL
    set cg1 : CgState :=
      { cg with movableDests := some (filteredDests cg.pieces L),
                premoveCustomDests := some [] } with hcg1def
    have hT1 : onTurn cg1 = onTurn cg := rfl
    have hcg1 : (st.setLegalDests L).cg = some cg1 := by rw [hlc]
    by_cases hT : onTurn cg
    · have hclr := setPremoveDests_clear (st.setLegalDests L) cg1 P hcg1
        (Or.inl (hT1.trans hT))
      refine ⟨?_, ?_, ?_, ?_, ?_⟩
      · rw [hclr]
        simp [premoveNonempty]
      · have hclr0 := setPremoveDests_clear st cg P hcg (Or.inl hT)
        have hcg2 : (st.setPremoveDests P).cg
            = some { cg with premoveCustomDests := some [] } := by rw [hclr0]
        rw [setLegalDests_cons (st.setPremoveDests P)
          ({ cg with premoveCustomDests := some [] }) L hcg2 hL]
        simp [premoveNonempty]
      · intro _
        rw [hlc]
        simp [premoveNonempty]
      · intro h; exact absurd hT (by simp [h])
      · intro h; exact absurd hT (by simp [h])
    · have hT' : onTurn cg = false := by simpa using hT
      by_cases hP : P = []
      · have hclr := setPremoveDests_clear (st.setLegalDests L) cg1 P hcg1
          (Or.inr hP)
        have hclr0 := setPremoveDests_clear st cg P hcg (Or.inr hP)
        have hcg2 : (st.setPremoveDests P).cg
            = some { cg with premoveCustomDests := some [] } := by rw [hclr0]
        have hlc2 := setLegalDests_cons (st.setPremoveDests P)
          ({ cg with premoveCustomDests := some [] }) L hcg2 hL
        refine ⟨?_, ?_, ?_, ?_, ?_⟩
        · rw [hclr]
          simp [premoveNonempty]
        · rw [hlc2]
          simp [premoveNonempty]
        · intro _
          rw [hlc]
          simp [premoveNonempty]
        · intro _ h; exact absurd hP (by simpa using h)
        · intro _ hF _
          have hie := hF hL
          constructor
          · rw [hclr]
            left
            simp [legalNonempty, cg1, hie]
          · rw [hlc2]
            left
            simp [legalNonempty, hie]
      · have happ := setPremoveDests_apply (st.setLegalDests L) cg1 P hcg1
          (hT1.trans hT') hP
        have happ0 := setPremoveDests_apply st cg P hcg hT' hP
        set cg2 : CgState :=
          { cg with movableDests := none, premovableEnabled := true,
                    premoveCustomDests := some (mapOfList P) } with hcg2def
        have hcg2 : (st.setPremoveDests P).cg = some cg2 := by rw [happ0]
        have hlc2 := setLegalDests_cons (st.setPremoveDests P) cg2 L hcg2 hL
        refine ⟨?_, ?_, ?_, ?_, ?_⟩
        · rw [happ]
          simp [legalNonempty]
        · rw [hlc2]
          simp [premoveNonempty]
        · intro _
          rw [hlc]
          simp [premoveNonempty]
        · intro _ _
          rw [happ0]
          simp [legalNonempty]
        · intro _ hF _
          have hie := hF hL
          have hne : (mapOfList P) ≠ [] := mapOfList_ne_nil P hP
          have hpe : (mapOfList P).isEmpty = false := by simpa using hne
          constructor
          · rw [happ]
            right
            simp [premoveNonempty, hpe]
          · rw [hlc2]
            left
            simp [legalNonempty, cg2, hie]

/-- Witness for `dest_sets_exclusive` at the off-turn fixture with one
non-empty legal mapping and one non-empty premove mapping. -/
theorem dest_sets_exclusive_witness :
    offTurnBoard.cg = some offTurnCg ∧
    (¬(legalNonempty ((offTurnBoard.setLegalDests [("e2", ["e3"])]).setPremoveDests
          [("e7", ["e5"])]) = true ∧
       premoveNonempty ((offTurnBoard.setLegalDests [("e2", ["e3"])]).setPremoveDests
          [("e7", ["e5"])]) = true) ∧
     ¬(legalNonempty ((offTurnBoard.setPremoveDests [("e7", ["e5"])]).setLegalDests
          [("e2", ["e3"])]) = true ∧
       premoveNonempty ((offTurnBoard.setPremoveDests [("e7", ["e5"])]).setLegalDests
          [("e2", ["e3"])]) = true) ∧
     (([("e2", ["e3"])] : List (String × List String)) ≠ [] →
       premoveNonempty (offTurnBoard.setLegalDests [("e2", ["e3"])]) = false) ∧
     (onTurn offTurnCg = false → ([("e7", ["e5"])] : List (String × List String)) ≠ [] →
       legalNonempty (offTurnBoard.setPremoveDests [("e7", ["e5"])]) = false) ∧
     (onTurn offTurnCg = false →
       (([("e2", ["e3"])] : List (String × List String)) ≠ [] →
         (filteredDests offTurnCg.pieces [("e2", ["e3"])]).isEmpty = false) →
       (([("e2", ["e3"])] : List (String × List String)) ≠ [] ∨
         ([("e7", ["e5"])] : List (String × List String)) ≠ []) →
       (legalNonempty ((offTurnBoard.setLegalDests [("e2", ["e3"])]).setPremoveDests
            [("e7", ["e5"])]) = true ∨
         premoveNonempty ((offTurnBoard.setLegalDests [("e2", ["e3"])]).setPremoveDests
            [("e7", ["e5"])]) = true) ∧
       (legalNonempty ((offTurnBoard.setPremoveDests [("e7", ["e5"])]).setLegalDests
            [("e2", ["e3"])]) = true ∨
         premoveNonempty ((offTurnBoard.setPremoveDests [("e7", ["e5"])]).setLegalDests
            [("e2", ["e3"])]) = true))) :=
  ⟨rfl, dest_sets_exclusive offTurnBoard offTurnCg
    [("e2", ["e3"])] [("e7", ["e5"])] rfl⟩

/-!  C6 — the turn-authority rule is reapplied by every position, turn and
draggability mutation. -/

/-- The turn-authority outcome required after a mutation of `st`: on turn the
stored legal map (when one is stored) is on the surface and the premove dots
are force-cleared; off turn the legal dots are cleared and the stored premove
map (when one is stored) is on the surface. -/
def authorityHolds (st st' : BoardController) : Prop :=
  ∀ cg', st'.cg = some cg' →
    (onTurn cg' = true →
      (∀ m, st.lastLegalMap = some m → cg'.movableDests = some m) ∧
      cg'.premoveCustomDests = some [] ∧ st'.lastPremoveMap = none) ∧
    (onTurn cg' = false →
      cg'.movableDests = none ∧
      (∀ m, st.lastPremoveMap = some m → cg'.premoveCustomDests = some m))

/-- The turn-authority test only depends on `movableColor` and `turnColor`. -/
lemma onTurn_congr (cg cg' : CgState) (hm : cg'.movableColor = cg.movableColor)
    (ht : cg'.turnColor = cg.turnColor) : onTurn cg' = onTurn cg := by
  unfold onTurn
  rw [hm, ht]

/-- What the shared turn-authority block does, by case on the authority. -/
lemma applyTurnAuthority_spec (st : BoardController) (cg : CgState)
    (hcg : st.cg = some cg) :
    ∃ cg', (applyTurnAuthority st).cg = some cg' ∧
      cg'.movableColor = cg.movableColor ∧ cg'.turnColor = cg.turnColor ∧
      (onTurn cg = true →
        (∀ m, st.lastLegalMap = some m → cg'.movableDests = some m) ∧
        cg'.premoveCustomDests = some [] ∧
        (applyTurnAuthority st).lastPremoveMap = none) ∧
      (onTurn cg = false →
        cg'.movableDests = none ∧
        (∀ m, st.lastPremoveMap = some m → cg'.premoveCustomDests = some m)) := by
  by_cases hT : onTurn cg
  · cases hm : st.lastLegalMap with
    | some m =>
      refine ⟨{ cg with movableDests := some m, premoveCustomDests := some [] },
        ?_, rfl, rfl, ?_, ?_⟩
      · simp [applyTurnAuthority, hcg, hT, hm]
      · intro _
        refine ⟨?_, rfl, ?_⟩
        · intro m2 hm2
          injection hm2 with h
          rw [h]
        · simp [applyTurnAuthority, hcg, hT, hm]
      · intro h
        rw [hT] at h
        cases h
    | none =>
      refine ⟨{ cg with premoveCustomDests := some [] }, ?_, rfl, rfl, ?_, ?_⟩
      · simp [applyTurnAuthority, hcg, hT, hm]
      · intro _
        refine ⟨?_, rfl, ?_⟩
        · intro m2 hm2
          cases hm2
        · simp [applyTurnAuthority, hcg, hT, hm]
      · intro h
        rw [hT] at h
        cases h
  · have hT' : onTurn cg = false := by simpa using hT
    cases hm : st.lastPremoveMap with
    | some m =>
      refine ⟨{ cg with movableDests := none, premoveCustomDests := some m },
        ?_, rfl, rfl, ?_, ?_⟩
      · simp [applyTurnAuthority, hcg, hT', hm]
      · intro h
        rw [hT'] at h
        cases h
      · intro _
        refine ⟨rfl, ?_⟩
        intro m2 hm2
        injection hm2 with h
        rw [h]
    | none =>
      refine ⟨{ cg with movableDests := none }, ?_, rfl, rfl, ?_, ?_⟩
      · simp [applyTurnAuthority, hcg, hT', hm]
      · intro h
        rw [hT'] at h
        cases h
      · intro _
        refine ⟨rfl, ?_⟩
        intro m2 hm2
        cases hm2

/-- The shared turn-authority block establishes `authorityHolds` relative to
any pre-state with the same stored destination maps. -/
lemma authorityHolds_of_apply (st st1 : BoardController) (cg1 : CgState)
    (hcg1 : st1.cg = some cg1)
    (hLegal : st1.lastLegalMap = st.lastLegalMap)
    (hPrem : st1.lastPremoveMap = st.lastPremoveMap) :
    authorityHolds st (applyTurnAuthority st1) := by
  intro cg' h'
  obtain ⟨cg2, h2, hmc, htc, hOnT, hOffT⟩ := applyTurnAuthority_spec st1 cg1 hcg1
  rw [h2] at h'
  injection h' with h'
  subst h'
  have hot : onTurn cg2 = onTurn cg1 := onTurn_congr cg1 cg2 hmc htc
  constructor
  · intro hT
    obtain ⟨ha, hb, hc⟩ := hOnT (by rw [← hot]; exact hT)
    exact ⟨fun m hm => ha m (by rw [hLegal]; exact hm), hb, hc⟩
  · intro hT
    obtain ⟨ha, hb⟩ := hOffT (by rw [← hot]; exact hT)
    exact ⟨ha, fun m hm => hb m (by rw [hPrem]; exact hm)⟩

/-- `authorityHolds` survives any post-processing step that preserves the
surface's destination fields, the turn-authority inputs, and the remembered
premove map. -/
lemma authorityHolds_post (st st2 st3 : BoardController)
    (hfields : ∀ cg', st3.cg = some cg' → ∃ cg2, st2.cg = some cg2 ∧
      cg'.movableColor = cg2.movableColor ∧ cg'.turnColor = cg2.turnColor ∧
      cg'.movableDests = cg2.movableDests ∧
      cg'.premoveCustomDests = cg2.premoveCustomDests)
    (hpm : st3.lastPremoveMap = st2.lastPremoveMap)
    (h : authorityHolds st st2) :
    authorityHolds st st3 := by
  intro cg' h'
  obtain ⟨cg2, h2, hmc, htc, hmd, hpd⟩ := hfields cg' h'
  have hot : onTurn cg' = onTurn cg2 := onTurn_congr cg2 cg' hmc htc
  obtain ⟨hOn, hOff⟩ := h cg2 h2
  constructor
  · intro hT
    obtain ⟨ha, hb, hc⟩ := hOn (by rw [← hot]; exact hT)
    exact ⟨fun m hm => by rw [hmd]; exact ha m hm, by rw [hpd]; exact hb,
      by rw [hpm]; exact hc⟩
  · intro hT
    obtain ⟨ha, hb⟩ := hOff (by rw [← hot]; exact hT)
    exact ⟨by rw [hmd]; exact ha, fun m hm => by rw [hpd]; exact hb m hm⟩

/-- The selection reassertion step only rewrites `selected` and leaves every
other field alone. -/
lemma reapplySelection_fields (st : BoardController) (now : Nat) :
    (∀ cg', (reapplySelection st now).cg = some cg' → ∃ cg0, st.cg = some cg0 ∧
      cg'.movableColor = cg0.movableColor ∧ cg'.turnColor = cg0.turnColor ∧
      cg'.movableDests = cg0.movableDests ∧
      cg'.premoveCustomDests = cg0.premoveCustomDests) ∧
    (reapplySelection st now).lastPremoveMap = st.lastPremoveMap := by
  cases hcg : st.cg with
  | none => simp [reapplySelection, hcg]
  | some cg0 =>
    cases hk : st.lastSelectedKey with
    | some k =>
      constructor
      · intro cg' h'
        refine ⟨cg0, rfl, ?_⟩
        simp only [reapplySelection, hcg, hk] at h'
        split at h' <;>
          (simp only [Option.some.injEq] at h'
           subst h'
           exact ⟨rfl, rfl, rfl, rfl⟩)
      · simp only [reapplySelection, hcg, hk]
        split <;> rfl
    | none =>
      constructor
      · intro cg' h'
        refine ⟨cg0, rfl, ?_⟩
        simp only [reapplySelection, hcg, hk, Option.some.injEq] at h'
        subst h'
        exact ⟨rfl, rfl, rfl, rfl⟩
      · simp only [reapplySelection, hcg, hk]

/-- The premove-highlight reassertion step only rewrites `premovableCurrent`
and leaves every other field alone. -/
lemma reapplyPremoveCurrent_fields (st : BoardController) :
    (∀ cg', (reapplyPremoveCurrent st).cg = some cg' → ∃ cg0, st.cg = some cg0 ∧
      cg'.movableColor = cg0.movableColor ∧ cg'.turnColor = cg0.turnColor ∧
      cg'.movableDests = cg0.movableDests ∧
      cg'.premoveCustomDests = cg0.premoveCustomDests) ∧
    (reapplyPremoveCurrent st).lastPremoveMap = st.lastPremoveMap := by
  cases hcg : st.cg with
  | none => simp [reapplyPremoveCurrent, hcg]
  | some cg0 =>
    cases hsp : st.savedPremCurrent with
    | some sp =>
      constructor
      · intro cg' h'
        refine ⟨cg0, rfl, ?_⟩
        simp only [reapplyPremoveCurrent, hcg, hsp, Option.some.injEq] at h'
        subst h'
        exact ⟨rfl, rfl, rfl, rfl⟩
      · simp only [reapplyPremoveCurrent, hcg, hsp]
    | none =>
      constructor
      · intro cg' h'
        refine ⟨cg0, rfl, ?_⟩
        simp only [reapplyPremoveCurrent, hcg, hsp, Option.some.injEq] at h'
        subst h'
        exact ⟨rfl, rfl, rfl, rfl⟩
      · simp only [reapplyPremoveCurrent, hcg, hsp]

/-- C6: after every `setPosition`, `setTurn` and `setDraggable` call on a live
board — not only at init — the turn-authority rule is reapplied: when the
movable color is concrete and equals the (new) turn color the stored legal
destination set is pushed and the premove destination set force-cleared,
otherwise the legal set is cleared from the surface and the stored premove set
(if any) is pushed. -/
theorem turn_authority_reapplied (st : BoardController) (cg : CgState)
    (p : PositionPayload) (c : Color) (e : Bool) (pc : MovColor) (now : Nat)
    (hcg : st.cg = some cg) :
    authorityHolds st (st.setPosition p now) ∧
    authorityHolds st (st.setTurn c) ∧
    authorityHolds st (st.setDraggable e pc) := by
  refine ⟨?_, ?_, ?_⟩
  · simp only [BoardController.setPosition, hcg]
    exact authorityHolds_post st _ _ ((reapplyPremoveCurrent_fields _).1)
      ((reapplyPremoveCurrent_fields _).2)
      (authorityHolds_post st _ _ ((reapplySelection_fields _ now).1)
        ((reapplySelection_fields _ now).2)
        (authorityHolds_of_apply st _ _ rfl rfl rfl))
  · simp only [BoardController.setTurn, hcg]
    exact authorityHolds_post st _ _ ((reapplyPremoveCurrent_fields _).1)
      ((reapplyPremoveCurrent_fields _).2)
      (authorityHolds_of_apply st _ _ rfl rfl rfl)
  · simp only [BoardController.setDraggable, hcg]
    exact authorityHolds_of_apply st _ _ rfl rfl rfl

/-- Witness for `turn_authority_reapplied` at the off-turn fixture. -/
theorem turn_authority_reapplied_witness :
    offTurnBoard.cg = some offTurnCg ∧
    (authorityHolds offTurnBoard (offTurnBoard.setPosition { fen := startFen } 0) ∧
      authorityHolds offTurnBoard (offTurnBoard.setTurn Color.black) ∧
      authorityHolds offTurnBoard (offTurnBoard.setDraggable true MovColor.both)) :=
  ⟨rfl, turn_authority_reapplied offTurnBoard offTurnCg { fen := startFen }
    Color.black true MovColor.both 0 rfl⟩

/-!  C2 — ack round-trip and the dispatcher failure boundary. -/

/-- Ack counting distributes over concatenation. -/
lemma countAck_append (i : String) (a b : List OutMsg) :
    countAck i (a ++ b) = countAck i a + countAck i b := by
  simp [countAck, List.filter_append]

/-- Controller callback messages are never acks. -/
lemma countAck_wireEvents (i : String) (evs : List BoardEvent) :
    countAck i (wireEvents evs) = 0 := by
  induction evs with
  | nil => rfl
  | cons e t ih =>
    cases e <;> simpa [wireEvents, countAck, isAck, List.filterMap_cons]
      using ih

/-- `ack(id, true)` answers its own id exactly once. -/
lemma countAck_ackOk (i : String) : countAck i (ackOk (some i)) = 1 := by
  simp [ackOk, countAck, isAck]

/-- `ensureBoard` only rewrites the `controller` field of the session. -/
lemma runBoardOp_preserve (s : MfeState)
    (op : BoardController → BoardController × List BoardEvent) :
    (runBoardOp s op).1.parentWindow = s.parentWindow ∧
    (runBoardOp s op).1.allowedOrigin = s.allowedOrigin ∧
    (runBoardOp s op).1.appRootExists = s.appRootExists := by
  cases hc : s.controller with
  | some c => simp [runBoardOp, hc]
  | none =>
    by_cases h : s.appRootExists = true
    · simp [runBoardOp, hc, h]
    · have h' : s.appRootExists = false := by simpa using h
      simp [runBoardOp, hc, h']

/-- A plain dispatcher case only rewrites the `controller` field. -/
lemma hostOp_preserve (s : MfeState) (id : Option String)
    (f : BoardController → BoardController) :
    (hostOp s id f).1.parentWindow = s.parentWindow ∧
    (hostOp s id f).1.allowedOrigin = s.allowedOrigin ∧
    (hostOp s id f).1.appRootExists = s.appRootExists := by
  have hp := runBoardOp_preserve s (fun b => (f b, []))
  rcases h : runBoardOp s (fun b => (f b, [])) with ⟨s1, evs, err⟩
  rw [h] at hp
  cases err <;> simp [hostOp, h] <;> exact hp

/-- A plain dispatcher case acks exactly once on success and never acks itself
on a handler exception. -/
lemma hostOp_ack (s : MfeState) (i : String)
    (f : BoardController → BoardController) :
    ((hostOp s (some i) f).2.2 = none →
      countAck i (hostOp s (some i) f).2.1 = 1) ∧
    (∀ e, (hostOp s (some i) f).2.2 = some e →
      countAck i (hostOp s (some i) f).2.1 = 0) := by
  rcases h : runBoardOp s (fun b => (f b, [])) with ⟨s1, evs, err⟩
  cases err <;>
    simp [hostOp, h, countAck_append, countAck_wireEvents, countAck_ackOk]

/-- Every dispatcher case with an `id` acks that id exactly once when it
completes, and not at all when it throws (the failure boundary then adds the
single failure ack). -/
lemma dispatch_ack (s : MfeState) (origin : String) (c : Cmd) (i : String)
    (now : Nat) :
    ((dispatch s origin c (some i) now).2.2 = none →
      countAck i (dispatch s origin c (some i) now).2.1 = 1) ∧
    (∀ e, (dispatch s origin c (some i) now).2.2 = some e →
      countAck i (dispatch s origin c (some i) now).2.1 = 0) := by
  cases c with
  | init opts th =>
    simp only [dispatch]
    rcases h : runBoardOp { s with allowedOrigin := if origin == "" then none else some origin }
        (fun b => b.init (mfeInitOptions opts)) with ⟨s1, evs, err⟩
    cases err <;>
      simp [countAck_append, countAck_wireEvents, countAck_ackOk]
  | setTheme n => simp [dispatch, countAck_ackOk]
  | setPosition p => simpa [dispatch] using hostOp_ack s i (fun b => b.setPosition p now)
  | setLegalDests d => simpa [dispatch] using hostOp_ack s i (fun b => b.setLegalDests d)
  | setPremoveDests d => simpa [dispatch] using hostOp_ack s i (fun b => b.setPremoveDests d)
  | setTurn col => simpa [dispatch] using hostOp_ack s i (fun b => b.setTurn col)
  | setDraggable e pc => simpa [dispatch] using hostOp_ack s i (fun b => b.setDraggable e pc)
  | setFreeMode f => simpa [dispatch] using hostOp_ack s i (fun b => b.setFreeMode f)
  | clearPremoves => simpa [dispatch] using hostOp_ack s i (fun b => b.clearPremoves)
  | playPremove => simpa [dispatch] using hostOp_ack s i (fun b => b.playPremove)
  | flip => simpa [dispatch] using hostOp_ack s i (fun b => b.flip)
  | setSize w h => simpa [dispatch] using hostOp_ack s i (fun b => b)
  | reset => simp [dispatch, countAck_ackOk]
  | unknown t => simp [dispatch, countAck, isAck]

/-- The listener body emits exactly one ack for the envelope's id, through
either the success path or the failure boundary. -/
lemma processMessage_ack (s : MfeState) (origin : String) (source : Nat)
    (env : Envelope) (now : Nat) (i : String) (hid : env.id = some i) :
    countAck i (processMessage s origin source env now).2 = 1 := by
  have h := dispatch_ack (captureParent s source) origin env.cmd i now
  simp only [processMessage, hid]
  rcases he : (dispatch (captureParent s source) origin env.cmd (some i) now).2.2 with _ | e
  · simpa using h.1 he
  · have h0 := h.2 e he
    have hred : countAck i
        ((dispatch (captureParent s source) origin env.cmd (some i) now).2.1 ++
          [OutMsg.ackMsg i false (some e)] ++ [OutMsg.errorMsg "handler exception"]) = 1 := by
      rw [countAck_append, countAck_append, h0]
      simp [countAck, isAck]
    exact hred

/-- A message that passes the origin and envelope checks is processed. -/
lemma handleMessage_valid (s : MfeState) (origin : String) (source : Nat)
    (env : Envelope) (now : Nat)
    (hacc : originAccepted s origin = true) (hv : env.version = 1)
    (ht : env.cmd.typeName ≠ "") :
    handleMessage s origin source env now = processMessage s origin source env now := by
  simp [handleMessage, hacc, hv, ht]

/-- Exactly one ack comes back for any accepted envelope carrying an id. -/
lemma handleMessage_ack (s : MfeState) (origin : String) (source : Nat)
    (env : Envelope) (now : Nat) (i : String)
    (hacc : originAccepted s origin = true) (hv : env.version = 1)
    (ht : env.cmd.typeName ≠ "") (hid : env.id = some i) :
    countAck i (handleMessage s origin source env now).2 = 1 := by
  rw [handleMessage_valid s origin source env now hacc hv ht]
  exact processMessage_ack s origin source env now i hid

/-- C2: every accepted command envelope carrying an id — recognized or
unknown type, handler completing or throwing — yields exactly one ack whose
`for` field is that id; when the handler throws, the ack is `ok:false` with
the error message and a standalone `error` event is additionally broadcast;
and the listener stays installed: the next accepted envelope with an id again
yields exactly one ack. -/
theorem ack_roundtrip (s : MfeState) (origin : String) (source : Nat)
    (env : Envelope) (now : Nat) (i : String)
    (hacc : originAccepted s origin = true) (hv : env.version = 1)
    (ht : env.cmd.typeName ≠ "") (hid : env.id = some i) :
    countAck i (handleMessage s origin source env now).2 = 1 ∧
    (∀ e, (dispatch (captureParent s source) origin env.cmd env.id now).2.2 = some e →
      OutMsg.ackMsg i false (some e) ∈ (handleMessage s origin source env now).2 ∧
      OutMsg.errorMsg "handler exception" ∈ (handleMessage s origin source env now).2) ∧
    (∀ env2 now2 i2,
      originAccepted (handleMessage s origin source env now).1 origin = true →
      env2.version = 1 → env2.cmd.typeName ≠ "" → env2.id = some i2 →
      countAck i2 (handleMessage (handleMessage s origin source env now).1
        origin source env2 now2).2 = 1) := by
  refine ⟨handleMessage_ack s origin source env now i hacc hv ht hid, ?_, ?_⟩
  · intro e he
    rw [handleMessage_valid s origin source env now hacc hv ht]
    simp only [processMessage]
    rw [he]
    simp [hid, List.mem_append]
  · intro env2 now2 i2 hacc2 hv2 ht2 hid2
    exact handleMessage_ack _ origin source env2 now2 i2 hacc2 hv2 ht2 hid2

/-- Witness for `ack_roundtrip`: a `setTurn` command with id `42` sent to the
fresh session from an arbitrary origin. -/
theorem ack_roundtrip_witness :
    (originAccepted mfeInitial "https://host.example" = true ∧
      (⟨Cmd.setTurn Color.white, 1, some "42"⟩ : Envelope).version = 1 ∧
      (⟨Cmd.setTurn Color.white, 1, some "42"⟩ : Envelope).cmd.typeName ≠ "" ∧
      (⟨Cmd.setTurn Color.white, 1, some "42"⟩ : Envelope).id = some "42") ∧
    countAck "42" (handleMessage mfeInitial "https://host.example" 1
      ⟨Cmd.setTurn Color.white, 1, some "42"⟩ 0).2 = 1 :=
  ⟨⟨by decide, rfl, by decide, rfl⟩,
    (ack_roundtrip mfeInitial "https://host.example" 1
      ⟨Cmd.setTurn Color.white, 1, some "42"⟩ 0 "42"
      (by decide) rfl (by decide) rfl).1⟩

/-!  C10 — trust-on-first-use origin handling. -/

/-- No dispatcher case touches the captured counterpart handle or the
existence of the `#app` root. -/
lemma dispatch_preserve (s : MfeState) (origin : String) (c : Cmd)
    (id : Option String) (now : Nat) :
    (dispatch s origin c id now).1.parentWindow = s.parentWindow ∧
    (dispatch s origin c id now).1.appRootExists = s.appRootExists := by
  cases c with
  | init opts th =>
    simp only [dispatch]
    have hp := runBoardOp_preserve
      { s with allowedOrigin := if origin == "" then none else some origin }
      (fun b => b.init (mfeInitOptions opts))
    rcases h : runBoardOp { s with allowedOrigin := if origin == "" then none else some origin }
        (fun b => b.init (mfeInitOptions opts)) with ⟨s1, evs, err⟩
    rw [h] at hp
    cases err <;> simp <;>
      exact ⟨by simpa using hp.1, by simpa using hp.2.2⟩
  | setTheme n => simp [dispatch]
  | setPosition p =>
    exact ⟨(hostOp_preserve s id (fun b => b.setPosition p now)).1,
      (hostOp_preserve s id (fun b => b.setPosition p now)).2.2⟩
  | setLegalDests d =>
    exact ⟨(hostOp_preserve s id (fun b => b.setLegalDests d)).1,
      (hostOp_preserve s id (fun b => b.setLegalDests d)).2.2⟩
  | setPremoveDests d =>
    exact ⟨(hostOp_preserve s id (fun b => b.setPremoveDests d)).1,
      (hostOp_preserve s id (fun b => b.setPremoveDests d)).2.2⟩
  | setTurn col =>
    exact ⟨(hostOp_preserve s id (fun b => b.setTurn col)).1,
      (hostOp_preserve s id (fun b => b.setTurn col)).2.2⟩
  | setDraggable e pc =>
    exact ⟨(hostOp_preserve s id (fun b => b.setDraggable e pc)).1,
      (hostOp_preserve s id (fun b => b.setDraggable e pc)).2.2⟩
  | setFreeMode f =>
    exact ⟨(hostOp_preserve s id (fun b => b.setFreeMode f)).1,
      (hostOp_preserve s id (fun b => b.setFreeMode f)).2.2⟩
  | clearPremoves =>
    exact ⟨(hostOp_preserve s id (fun b => b.clearPremoves)).1,
      (hostOp_preserve s id (fun b => b.clearPremoves)).2.2⟩
  | playPremove =>
    exact ⟨(hostOp_preserve s id (fun b => b.playPremove)).1,
      (hostOp_preserve s id (fun b => b.playPremove)).2.2⟩
  | flip =>
    exact ⟨(hostOp_preserve s id (fun b => b.flip)).1,
      (hostOp_preserve s id (fun b => b.flip)).2.2⟩
  | setSize w h =>
    exact ⟨(hostOp_preserve s id (fun b => b)).1,
      (hostOp_preserve s id (fun b => b)).2.2⟩
  | reset => simp [dispatch]
  | unknown t => simp [dispatch]

/-- `case 'init'` adopts the (non-empty) sender origin, whether or not the
board construction throws afterwards. -/
lemma dispatch_init_allowedOrigin (s : MfeState) (origin : String)
    (opts : InitOptions) (th : Option String) (id : Option String) (now : Nat)
    (ho : origin ≠ "") :
    (dispatch s origin (Cmd.init opts th) id now).1.allowedOrigin = some origin := by
  have ho' : (origin == "") = false := by simp [ho]
  simp only [dispatch, ho', Bool.false_eq_true, if_false]
  have hp := runBoardOp_preserve { s with allowedOrigin := some origin }
    (fun b => b.init (mfeInitOptions opts))
  rcases h : runBoardOp { s with allowedOrigin := some origin }
      (fun b => b.init (mfeInitOptions opts)) with ⟨s1, evs, err⟩
  rw [h] at hp
  cases err <;> simp <;> simpa using hp.2.1

/-- C10: while the allowed origin is still the wildcard, a validly-versioned,
typed command from ANY sender origin is accepted and executed (the listener
never takes the drop branch), the counterpart handle is captured from the
first such message whatever its type, state-mutating commands such as `reset`
take effect, and an `init` adopts the sender origin; once the origin is
concrete, a message from any other origin is dropped outright (no state
change, no output). -/
theorem wildcard_accepts_all (s : MfeState) (origin : String) (source : Nat)
    (env : Envelope) (now : Nat)
    (hw : s.allowedOrigin = none) (hv : env.version = 1)
    (ht : env.cmd.typeName ≠ "") :
    handleMessage s origin source env now = processMessage s origin source env now ∧
    (s.parentWindow = none →
      (handleMessage s origin source env now).1.parentWindow = some source) ∧
    (env.cmd = Cmd.reset → (handleMessage s origin source env now).1.controller = none) ∧
    (∀ opts th, env.cmd = Cmd.init opts th → origin ≠ "" →
      (handleMessage s origin source env now).1.allowedOrigin = some origin) ∧
    (∀ s2 origin2 source2 env2 now2 ao, s2.allowedOrigin = some ao → origin2 ≠ ao →
      handleMessage s2 origin2 source2 env2 now2 = (s2, [])) := by
  have hacc : originAccepted s origin = true := by simp [originAccepted, hw]
  have hvalid := handleMessage_valid s origin source env now hacc hv ht
  refine ⟨hvalid, ?_, ?_, ?_, ?_⟩
  · intro hpw
    rw [hvalid]
    simp only [processMessage]
    have hd := dispatch_preserve (captureParent s source) origin env.cmd env.id now
    rcases he : (dispatch (captureParent s source) origin env.cmd env.id now).2.2 with _ | e <;>
      simpa [captureParent, hpw] using hd.1
  · intro hr
    rw [hvalid]
    simp only [processMessage]
    rw [hr]
    simp [dispatch]
  · intro opts th hr ho
    rw [hvalid]
    simp only [processMessage]
    rw [hr]
    have hd := dispatch_init_allowedOrigin (captureParent s source) origin opts th env.id now ho
    rcases he : (dispatch (captureParent s source) origin (Cmd.init opts th) env.id now).2.2 with _ | e <;>
      simpa using hd
  · intro s2 origin2 source2 env2 now2 ao h2 hne
    have : originAccepted s2 origin2 = false := by
      simp [originAccepted, h2, hne]
    simp [handleMessage, this]

/-- Witness for `wildcard_accepts_all`: a `reset` with id `9` from an
arbitrary origin against the fresh (wildcard) session. -/
theorem wildcard_accepts_all_witness :
    (mfeInitial.allowedOrigin = none ∧
      (⟨Cmd.reset, 1, some "9"⟩ : Envelope).version = 1 ∧
      (⟨Cmd.reset, 1, some "9"⟩ : Envelope).cmd.typeName ≠ "") ∧
    (handleMessage mfeInitial "https://host.example" 7 ⟨Cmd.reset, 1, some "9"⟩ 0
        = processMessage mfeInitial "https://host.example" 7 ⟨Cmd.reset, 1, some "9"⟩ 0 ∧
      (mfeInitial.parentWindow = none →
        (handleMessage mfeInitial "https://host.example" 7
          ⟨Cmd.reset, 1, some "9"⟩ 0).1.parentWindow = some 7) ∧
      ((⟨Cmd.reset, 1, some "9"⟩ : Envelope).cmd = Cmd.reset →
        (handleMessage mfeInitial "https://host.example" 7
          ⟨Cmd.reset, 1, some "9"⟩ 0).1.controller = none) ∧
      (∀ opts th, (⟨Cmd.reset, 1, some "9"⟩ : Envelope).cmd = Cmd.init opts th →
        "https://host.example" ≠ "" →
        (handleMessage mfeInitial "https://host.example" 7
          ⟨Cmd.reset, 1, some "9"⟩ 0).1.allowedOrigin = some "https://host.example") ∧
      (∀ s2 origin2 source2 env2 now2 ao, s2.allowedOrigin = some ao → origin2 ≠ ao →
        handleMessage s2 origin2 source2 env2 now2 = (s2, []))) :=
  ⟨⟨rfl, rfl, by decide⟩,
    wildcard_accepts_all mfeInitial "https://host.example" 7
      ⟨Cmd.reset, 1, some "9"⟩ 0 rfl rfl (by decide)⟩

/-!  C7 — `setPosition` after `reset`. -/

/-- Processing `reset` tears the controller down and acks. -/
lemma handleMessage_reset (s : MfeState) (origin : String) (src : Nat)
    (idr : String) (now : Nat) (hacc : originAccepted s origin = true) :
    handleMessage s origin src ⟨Cmd.reset, 1, some idr⟩ now
      = ({ captureParent s src with controller := none },
         [OutMsg.ackMsg idr true none]) := by
  rw [handleMessage_valid s origin src _ now hacc rfl
    (by show ("reset" : String) ≠ ""; decide)]
  simp [processMessage, dispatch, ackOk]

/-- A `setPosition` reaching a session without a controller recreates a fresh,
surface-less controller, silently does nothing to it, and acks `ok:true`. -/
lemma handleMessage_setPosition_uninit (s' : MfeState) (origin : String)
    (src : Nat) (idp : String) (p : PositionPayload) (now2 : Nat)
    (hacc : originAccepted s' origin = true) (hc : s'.controller = none)
    (happ : s'.appRootExists = true) :
    (handleMessage s' origin src ⟨Cmd.setPosition p, 1, some idp⟩ now2).2
      = [OutMsg.ackMsg idp true none] ∧
    (handleMessage s' origin src ⟨Cmd.setPosition p, 1, some idp⟩ now2).1.controller
      = some BoardController.fresh := by
  rw [handleMessage_valid s' origin src _ now2 hacc rfl
    (by show ("setPosition" : String) ≠ ""; decide)]
  simp only [processMessage]
  have hd : dispatch (captureParent s' src) origin (Cmd.setPosition p) (some idp) now2
      = ({ captureParent s' src with controller := some BoardController.fresh },
         [OutMsg.ackMsg idp true none], none) := by
    have hc2 : (captureParent s' src).controller = none := by
      simp [captureParent, hc]
    have ha2 : (captureParent s' src).appRootExists = true := by
      simp [captureParent, happ]
    simp [dispatch, hostOp, runBoardOp, hc2, ha2, BoardController.setPosition,
      BoardController.fresh, wireEvents, ackOk]
  rw [hd]
  simp

/-- C7 counterexample: after a `reset` (acked with id `r1`), a `setPosition`
with id `p2` sent before any new `init` is answered `ack{for:p2, ok:true}` —
not the claimed handler exception with `ack{ok:false}`. The recreated
controller has no rendering surface, so the position push is silently
dropped. -/
theorem setPosition_after_reset_acks_ok :
    (handleMessage (handleMessage hostSession "https://host.example" 1
        ⟨Cmd.reset, 1, some "r1"⟩ 0).1 "https://host.example" 1
        ⟨Cmd.setPosition { fen := startFen }, 1, some "p2"⟩ 0).2
      = [OutMsg.ackMsg "p2" true none] ∧
    (handleMessage (handleMessage hostSession "https://host.example" 1
        ⟨Cmd.reset, 1, some "r1"⟩ 0).1 "https://host.example" 1
        ⟨Cmd.setPosition { fen := startFen }, 1, some "p2"⟩ 0).1.controller
      = some BoardController.fresh := by
  decide

/-- C7 (amended): after a `reset`, a `setPosition` received before a new
`init` does not fail at all: `ensureBoard` recreates a controller with no
rendering surface, the position push early-returns, the command is
acknowledged exactly once with `ok:true`, no error event is broadcast, and
the session stays alive (with an uninitialized controller). -/
theorem setPosition_after_reset_silent (s : MfeState) (origin : String)
    (src : Nat) (idr idp : String) (p : PositionPayload) (now now2 : Nat)
    (hacc : originAccepted s origin = true) (happ : s.appRootExists = true) :
    countAck idp (handleMessage (handleMessage s origin src
        ⟨Cmd.reset, 1, some idr⟩ now).1 origin src
        ⟨Cmd.setPosition p, 1, some idp⟩ now2).2 = 1 ∧
    OutMsg.ackMsg idp true none ∈ (handleMessage (handleMessage s origin src
        ⟨Cmd.reset, 1, some idr⟩ now).1 origin src
        ⟨Cmd.setPosition p, 1, some idp⟩ now2).2 ∧
    (∀ e, OutMsg.errorMsg e ∉ (handleMessage (handleMessage s origin src
        ⟨Cmd.reset, 1, some idr⟩ now).1 origin src
        ⟨Cmd.setPosition p, 1, some idp⟩ now2).2) ∧
    (∀ b, (handleMessage (handleMessage s origin src
        ⟨Cmd.reset, 1, some idr⟩ now).1 origin src
        ⟨Cmd.setPosition p, 1, some idp⟩ now2).1.controller = some b →
      b.cg = none) := by
  have h1 := handleMessage_reset s origin src idr now hacc
  rw [h1]
  have hacc1 : originAccepted { captureParent s src with controller := none }
      origin = true := by
    simpa [originAccepted, captureParent] using hacc
  have h2 := handleMessage_setPosition_uninit
    { captureParent s src with controller := none } origin src idp p now2 hacc1
    rfl (by simp [captureParent, happ])
  refine ⟨?_, ?_, ?_, ?_⟩
  · rw [h2.1]
    simp [countAck, isAck]
  · rw [h2.1]
    simp
  · intro e
    rw [h2.1]
    simp
  · intro b hb
    rw [h2.2] at hb
    injection hb with hb
    rw [← hb]
    rfl

/-- Witness for `setPosition_after_reset_silent` at the live fixture
session. -/
theorem setPosition_after_reset_silent_witness :
    (originAccepted hostSession "https://host.example" = true ∧
      hostSession.appRootExists = true) ∧
    (countAck "p2" (handleMessage (handleMessage hostSession "https://host.example" 1
        ⟨Cmd.reset, 1, some "r1"⟩ 0).1 "https://host.example" 1
        ⟨Cmd.setPosition { fen := startFen }, 1, some "p2"⟩ 0).2 = 1 ∧
      OutMsg.ackMsg "p2" true none ∈ (handleMessage (handleMessage hostSession
        "https://host.example" 1 ⟨Cmd.reset, 1, some "r1"⟩ 0).1 "https://host.example" 1
        ⟨Cmd.setPosition { fen := startFen }, 1, some "p2"⟩ 0).2 ∧
      (∀ e, OutMsg.errorMsg e ∉ (handleMessage (handleMessage hostSession
        "https://host.example" 1 ⟨Cmd.reset, 1, some "r1"⟩ 0).1 "https://host.example" 1
        ⟨Cmd.setPosition { fen := startFen }, 1, some "p2"⟩ 0).2) ∧
      (∀ b, (handleMessage (handleMessage hostSession "https://host.example" 1
        ⟨Cmd.reset, 1, some "r1"⟩ 0).1 "https://host.example" 1
        ⟨Cmd.setPosition { fen := startFen }, 1, some "p2"⟩ 0).1.controller = some b →
        b.cg = none)) :=
  ⟨⟨rfl, rfl⟩,
    setPosition_after_reset_silent hostSession "https://host.example" 1 "r1" "p2"
      { fen := startFen } 0 0 rfl rfl⟩

end Chessgame
